import Mathlib

/-!
# Verification of the fantasy-viz normalization, scoring and caching core

Shallow embedding of the server core of the fantasy-viz repository:

* `server/src/parsers.ts` — defensive schema normalizer (`normalizeLeague`,
  `parseTeam`, `isLeagueStandingsResponse`, …);
* `server/src/SleeperService.ts` — secondary-provider points engine
  (`calculateFantasyPoints`), weekly cache (`getCachedWeekData`) and season
  summary (`getPlayerSeasonStats`);
* `server/src/FantasyPointsCalculator.ts` — scoring-rule table construction
  (`getScoringRules`);
* the token store (`TokenStore.getAccessToken`).

JSON trees are modelled by `JValue`.  JavaScript numbers are modelled by `ℚ`
(every finite double denotes a rational; double rounding of intermediate
arithmetic is not modelled — no theorem below depends on a value where the
double computation and the exact computation differ).  `undefined` is
modelled by `Option JValue = none`.  Fallible upstream calls are modelled by
explicit outcome parameters (`Except`/`Option`), and `Math.random` by an
explicit entropy oracle, so every embedded function is total and
deterministic in its arguments.
-/

/-- A JSON value as delivered by `JSON.parse`.  Numbers are rationals (the
value denoted by the double), objects are association lists in property
order. -/
inductive JValue where
  | jnull : JValue
  | jbool : Bool → JValue
  | jnum : ℚ → JValue
  | jstr : String → JValue
  | jarr : List JValue → JValue
  | jobj : List (String × JValue) → JValue
deriving Repr, Inhabited

/-- JavaScript truthiness of a value (`Boolean(v)`).  `NaN` does not arise in
the rational model. -/
def truthy : JValue → Bool
  | .jnull => false
  | .jbool b => b
  | .jnum q => !(q == 0)
  | .jstr s => !(s == "")
  | .jarr _ => true
  | .jobj _ => true

/-- Truthiness of a possibly-`undefined` value. -/
def truthyOpt : Option JValue → Bool
  | none => false
  | some v => truthy v

/-- The `isRecord` type guard of `parsers.ts`: a non-null, non-array
object. -/
def isRecord : JValue → Bool
  | .jobj _ => true
  | _ => false

/-- The `Array.isArray` test. -/
def isArrayJ : JValue → Bool
  | .jarr _ => true
  | _ => false

/-- JavaScript property access `v[k]` (returning `undefined` as `none`).
Objects look keys up directly; arrays and strings respond to canonical
index strings.  The `length` property is not modelled (the embedding reads
lengths structurally). -/
def getField : JValue → String → Option JValue
  | .jobj fields, k => (fields.find? (fun p => p.1 == k)).map (fun p => p.2)
  | .jarr xs, k =>
    match k.toNat? with
    | some n => if toString n == k then xs[n]? else none
    | none => none
  | .jstr s, k =>
    match k.toNat? with
    | some n =>
      if toString n == k then (s.data[n]?).map (fun c => .jstr (String.mk [c])) else none
    | none => none
  | _, _ => none

/-- Optional chaining `o?.k`. -/
def getOpt (o : Option JValue) (k : String) : Option JValue :=
  o.bind (fun v => getField v k)

/-- The JavaScript `k in v` test (key presence, not truthiness); only ever
used behind an `isRecord` guard in the source. -/
def hasField : JValue → String → Bool
  | .jobj fields, k => fields.any (fun p => p.1 == k)
  | _, _ => false

/-- Properties enumerated by a `for (const k in v)` loop, in stored order.
(JavaScript additionally reorders integer-like keys first; the claims proved
below are insensitive to enumeration order.) -/
def forInFields : JValue → List (String × JValue)
  | .jobj fields => fields
  | .jarr xs => xs.enum.map (fun p => (toString p.1, p.2))
  | .jstr s => s.data.enum.map (fun p => (toString p.1, .jstr (String.mk [p.2])))
  | _ => []

/-- Decimal digits to a natural number. -/
def digitsToNat (ds : List Char) : ℕ :=
  ds.foldl (fun acc c => 10 * acc + (c.toNat - 48)) 0

/-- Count how many times `p` divides `n` (fuelled, fuel `≥ n` suffices),
returning the count and the remaining cofactor. -/
def stripCount (p : ℕ) : ℕ → ℕ → ℕ × ℕ
  | 0, n => (0, n)
  | fuel + 1, n =>
    if 1 < p && 0 < n && n % p == 0 then
      let r := stripCount p fuel (n / p)
      (r.1 + 1, r.2)
    else (0, n)

/-- Smallest `k` with `d ∣ 10 ^ k`, when one exists (`d = 2^a · 5^b`). -/
def decDigitsExp (d : ℕ) : Option ℕ :=
  let r2 := stripCount 2 d d
  let r5 := stripCount 5 r2.2 r2.2
  if r5.2 == 1 then some (max r2.1 r5.1) else none

/-- Decimal rendering of `n`, left-padded with zeros to `pad` digits. -/
def natPadded (n pad : ℕ) : String :=
  let s := toString n
  String.mk (List.replicate (pad - s.length) '0') ++ s

/-- The `String(x)` coercion for a number: the exact decimal expansion when the
denominator is of the form `2^a · 5^b` (which covers every value a double
can take; exponent notation for extreme magnitudes is not modelled).  The
slash form is unreachable for doubles. -/
def numToString (q : ℚ) : String :=
  let sign := if q < 0 then "-" else ""
  let n := q.num.natAbs
  let d := q.den
  match decDigitsExp d with
  | some k =>
    if k == 0 then sign ++ toString n
    else
      let scaled := n * 10 ^ k / d
      sign ++ toString (scaled / 10 ^ k) ++ "." ++ natPadded (scaled % 10 ^ k) k
  | none => sign ++ toString n ++ "/" ++ toString d

mutual

/-- JavaScript `String(v)` coercion. -/
def jsToString : JValue → String
  | .jnull => "null"
  | .jbool b => cond b "true" "false"
  | .jnum q => numToString q
  | .jstr s => s
  | .jobj _ => "[object Object]"
  | .jarr xs => jsJoin xs

/-- The `Array.prototype.toString` join (comma join; `null` elements render as the
empty string). -/
def jsJoin : List JValue → String
  | [] => ""
  | [.jnull] => ""
  | [v] => jsToString v
  | .jnull :: v :: rest => "," ++ jsJoin (v :: rest)
  | u :: v :: rest => jsToString u ++ "," ++ jsJoin (v :: rest)

end

/-- The `parseFloat(s)` coercion: longest numeric lead of the string, with optional sign,
fraction and exponent; `none` models `NaN`.  (`"Infinity"` is not modelled;
no input below produces it.) -/
def jsParseFloatStr (s : String) : Option ℚ :=
  let cs := s.data.dropWhile Char.isWhitespace
  let sgn : ℚ × List Char :=
    match cs with
    | '-' :: rest => (-1, rest)
    | '+' :: rest => (1, rest)
    | _ => (1, cs)
  let ipr := sgn.2.span Char.isDigit
  let fpr :=
    match ipr.2 with
    | '.' :: rest => rest.span Char.isDigit
    | _ => (([] : List Char), ipr.2)
  if ipr.1.isEmpty && fpr.1.isEmpty then none
  else
    let mantissa : ℚ := (digitsToNat ipr.1 : ℚ) + (digitsToNat fpr.1 : ℚ) / (10 : ℚ) ^ fpr.1.length
    let expo : ℤ :=
      match fpr.2 with
      | c :: rest =>
        if c == 'e' || c == 'E' then
          let esgn : ℤ × List Char :=
            match rest with
            | '-' :: r => (-1, r)
            | '+' :: r => (1, r)
            | _ => (1, rest)
          let ed := esgn.2.span Char.isDigit
          if ed.1.isEmpty then 0 else esgn.1 * (digitsToNat ed.1 : ℤ)
        else 0
      | [] => 0
    some (sgn.1 * mantissa * (10 : ℚ) ^ expo)

/-- The `parseInt(s, 10)` coercion: sign and maximal decimal digit lead; `none` models
`NaN`. -/
def jsParseIntStr (s : String) : Option ℤ :=
  let cs := s.data.dropWhile Char.isWhitespace
  let sgn : ℤ × List Char :=
    match cs with
    | '-' :: rest => (-1, rest)
    | '+' :: rest => (1, rest)
    | _ => (1, cs)
  let ds := sgn.2.span Char.isDigit
  if ds.1.isEmpty then none else some (sgn.1 * (digitsToNat ds.1 : ℤ))

/-- The `safeParseFloat` helper of `parsers.ts`: `parseFloat(String(value))` with an
explicit fallback (`String(undefined) = "undefined"` parses to `NaN`). -/
def safeParseFloat (v : Option JValue) (fallback : ℚ) : ℚ :=
  match jsParseFloatStr (match v with | some x => jsToString x | none => "undefined") with
  | some q => q
  | none => fallback

/-- The `safeParseInt` helper of `parsers.ts`. -/
def safeParseInt (v : Option JValue) (fallback : ℤ) : ℤ :=
  match jsParseIntStr (match v with | some x => jsToString x | none => "undefined") with
  | some q => q
  | none => fallback

/-! ## Fantasy points engine (`SleeperService.calculateFantasyPoints`) -/

/-- The fixed Yahoo-stat-id → Sleeper-stat-key translation table hard-coded
in `calculateFantasyPoints`. -/
def yahooToSleeper (yahooStatId : ℤ) : Option String :=
  match yahooStatId with
  | 4 => some "pass_yd"
  | 5 => some "pass_td"
  | 6 => some "pass_int"
  | 8 => some "pass_2pt"
  | 9 => some "rush_yd"
  | 10 => some "rush_td"
  | 11 => some "rec"
  | 12 => some "rec_yd"
  | 13 => some "rec_td"
  | 15 => some "rec_2pt"
  | 16 => some "rush_2pt"
  | 18 => some "fum_lost"
  | _ => none

/-- A raw Sleeper stat snapshot for one player: present stat keys with their
numeric values (`stats[k] !== undefined` is modelled by lookup success). -/
def statLookup (stats : List (String × ℚ)) (k : String) : Option ℚ :=
  (stats.find? (fun p => p.1 == k)).map (fun p => p.2)

/-- One line of the itemized breakdown returned by the points engine. -/
structure BreakdownItem where
  stat : String
  value : ℚ
  points : ℚ
deriving Repr, DecidableEq

/-- The points engine `SleeperService.calculateFantasyPoints`: iterate the scoring rules (a
Yahoo-keyed map in insertion order), translate each Yahoo stat id to the
Sleeper key, and accumulate `statValue * points`, skipping zero-valued
stats (which are absent from the breakdown and contribute nothing). -/
def calculateFantasyPoints (stats : List (String × ℚ)) (scoringRules : List (ℤ × ℚ)) :
    ℚ × List BreakdownItem :=
  scoringRules.foldl
    (fun acc rule =>
      match yahooToSleeper rule.1 with
      | some sleeperStatKey =>
        match statLookup stats sleeperStatKey with
        | some v =>
          if v == 0 then acc
          else (acc.1 + v * rule.2, acc.2 ++ [⟨sleeperStatKey, v, v * rule.2⟩])
        | none => acc
      | none => acc)
    (0, [])

/-! ## Scoring-rule table (`FantasyPointsCalculator.getScoringRules`) -/

/-- One `stat_modifiers.stats` entry of the Yahoo league-settings payload. -/
structure StatModifier where
  statId : ℤ
  value : String
deriving Repr, DecidableEq

/-- The `Map.prototype.has` test. -/
def mapHas (m : List (ℤ × ℚ)) (k : ℤ) : Bool :=
  m.any (fun p => p.1 == k)

/-- The `Map.prototype.get` lookup (first, i.e. unique, binding). -/
def mapGet (m : List (ℤ × ℚ)) (k : ℤ) : Option ℚ :=
  (m.find? (fun p => p.1 == k)).map (fun p => p.2)

/-- The `Map.prototype.set` update: overwrite in place if the key exists, else append
(JavaScript `Map` preserves first-insertion order). -/
def mapSet (m : List (ℤ × ℚ)) (k : ℤ) (v : ℚ) : List (ℤ × ℚ) :=
  if mapHas m k then m.map (fun p => if p.1 == k then (k, v) else p)
  else m ++ [(k, v)]

/-- The rule-table construction of `getScoringRules` from the fetched
`stat_modifiers.stats` list: insert every modifier whose value parses to a
number, then add default 2-point-conversion rules for stat ids 8, 15 and 16
when absent. -/
def buildScoringRules (statModifiers : List StatModifier) : List (ℤ × ℚ) :=
  let base := statModifiers.foldl
    (fun m sm =>
      match jsParseFloatStr sm.value with
      | some pts => mapSet m sm.statId pts
      | none => m)
    []
  let withPass := if !(mapHas base 8) then mapSet base 8 2 else base
  let withRec := if !(mapHas withPass 15) then mapSet withPass 15 2 else withPass
  if !(mapHas withRec 16) then mapSet withRec 16 2 else withRec

/-! ## Weekly file cache (`SleeperService.getCachedWeekData` / `getWeekStats`) -/

/-- A cache file as written by `setCachedWeekData`: the payload plus the
write timestamp (milliseconds). -/
structure WeekCacheFile (α : Type) where
  data : α
  timestamp : ℤ
deriving Repr, DecidableEq

/-- The cache read `getCachedWeekData`: `none` when the file is absent (or unreadable);
past weeks are served unconditionally; the current week has a 1-hour TTL
and future weeks a 24-hour TTL. -/
def getCachedWeekData {α : Type} (file : Option (WeekCacheFile α))
    (week currentWeek now : ℤ) : Option α :=
  match file with
  | none => none
  | some cached =>
    if week < currentWeek then some cached.data
    else
      let ttl : ℤ := if week = currentWeek then 60 * 60 * 1000 else 24 * 60 * 60 * 1000
      if now - cached.timestamp < ttl then some cached.data else none

/-- The fetch wrapper `getWeekStats` (and identically `getWeekProjections`): serve the cache
hit, otherwise fetch.  The boolean records whether an upstream fetch
occurred. -/
def getWeekStats {α : Type} (file : Option (WeekCacheFile α))
    (week currentWeek now : ℤ) (fetched : α) : α × Bool :=
  match getCachedWeekData file week currentWeek now with
  | some d => (d, false)
  | none => (fetched, true)

/-! ## Token store (`TokenStore.getAccessToken`) -/

/-- The Yahoo token payload (fields relevant to the store). -/
structure YahooTokens where
  access_token : String
  refresh_token : String
  expires_in : ℤ
deriving Repr, DecidableEq

/-- A stored credential record. -/
structure StoredToken where
  tokens : YahooTokens
  expiresAt : ℤ
  userId : String
deriving Repr, DecidableEq

/-- Outcome of the upstream refresh call: `.error` models a thrown
exception (e.g. unconfigured client credentials), `.ok none` a refresh the
provider rejected, `.ok (some t)` fresh tokens. -/
abbrev RefreshOutcome := Except Unit (Option YahooTokens)

/-- The credential read `TokenStore.getAccessToken`: serve the stored token while it is more
than five minutes from expiry; otherwise attempt a refresh, returning the
fresh token on success and `null` on any failure (exceptions from the
refresh call are caught). -/
def getAccessToken (stored : Option StoredToken) (now : ℤ)
    (refreshOutcome : RefreshOutcome) : Option String :=
  match stored with
  | none => none
  | some s =>
    if now + 5 * 60 * 1000 < s.expiresAt then some s.tokens.access_token
    else
      match refreshOutcome with
      | .ok (some newTokens) => some newTokens.access_token
      | .ok none => none
      | .error _ => none

/-! ## Schema normalizer (`parsers.ts`) -/

/-- The normalized team record (`NormalizedTeam` of `yahoo-types.ts`).
`ties` keeps the raw number when the provider sends a number. -/
structure NormalizedTeam where
  id : String
  teamKey : String
  name : String
  seasonTotal : ℚ
  rank : ℤ
  wins : ℤ
  losses : ℤ
  ties : ℚ
deriving Repr, DecidableEq

/-- One weekly team score (`WeeklyTeamScore`). -/
structure WeeklyTeamScore where
  week : ℤ
  teamName : String
  score : ℚ
deriving Repr, DecidableEq

/-- The normalized league (`NormalizedLeague`).  `id`/`name` keep the raw
JSON value the source assigns without coercion. -/
structure NormalizedLeague where
  id : JValue
  name : JValue
  teams : List NormalizedTeam
  points : List WeeklyTeamScore

/-- The fallback result every failure path of `normalizeLeague` returns. -/
def emptyLeague : NormalizedLeague :=
  { id := .jstr "unknown", name := .jstr "unknown", teams := [], points := [] }

/-- The type guard `isLeagueStandingsResponse` validating the standings
response.  Note that it tests `league[0].league_id` and
`league[1].standings` positionally. -/
def isLeagueStandingsResponse (data : JValue) : Bool :=
  if !(isRecord data) then false
  else
    match getField data "fantasy_content" with
    | some fantasyContent =>
      if !(isRecord fantasyContent) then false
      else
        match getField fantasyContent "league" with
        | some (.jarr league) =>
          if league.length < 2 then false
          else
            (match league[0]? with
             | some e0 => isRecord e0 && truthyOpt (getField e0 "league_id")
             | none => false)
            && (match league[1]? with
                | some e1 => isRecord e1 && truthyOpt (getField e1 "standings")
                | none => false)
        | _ => false
    | none => false

/-- The scan `findLeagueInfo`: search the league array for the element carrying a
`league_id` property. -/
def findLeagueInfo (leagueArray : List JValue) : Option JValue :=
  leagueArray.find? (fun item => isRecord item && hasField item "league_id")

/-- The scan `findStandingsWrapper`: search the league array for the element carrying
a `standings` property. -/
def findStandingsWrapper (leagueArray : List JValue) : Option JValue :=
  leagueArray.find? (fun item => isRecord item && hasField item "standings")

/-- The extraction `extractTeamInfo`: fold over the team info array, keeping the last
truthy `team_id`, `team_key` and `name` (with `String()` coercion),
defaulting to `"unknown"`/`"unknown"`/`"Team"`. -/
def extractTeamInfo (teamInfoArray : List JValue) : String × String × String :=
  teamInfoArray.foldl
    (fun acc infoObj =>
      let id := match getField infoObj "team_id" with
        | some v => if truthy v then jsToString v else acc.1
        | none => acc.1
      let key := match getField infoObj "team_key" with
        | some v => if truthy v then jsToString v else acc.2.1
        | none => acc.2.1
      let name := match getField infoObj "name" with
        | some v => if truthy v then jsToString v else acc.2.2
        | none => acc.2.2
      (id, key, name))
    ("unknown", "unknown", "Team")

/-- The team parser `parseTeam`: validate the `(info-array, points, standings)` triple of a
team wrapper and extract the normalized team; `none` on any missing or
malformed component.  The `team_points.total` presence test is a JavaScript
truthiness test, so a numeric `0` or empty-string total is rejected exactly
as a missing one is. -/
def parseTeam (teamWrapper : JValue) : Option NormalizedTeam :=
  if !(truthyOpt (getField teamWrapper "team")) then none
  else
    match getField teamWrapper "team" with
    | some (.jarr team) =>
      let teamPoints := team[1]?
      let teamStandings := team[2]?
      match (team[0]? : Option JValue) with
      | some (.jarr teamInfoArray) =>
        if !(truthyOpt (getOpt (getOpt teamPoints "team_points") "total")) then none
        else if !(truthyOpt (getOpt teamStandings "team_standings")) then none
        else
          let info := extractTeamInfo teamInfoArray
          let ts := getOpt teamStandings "team_standings"
          let tiesRaw := getOpt (getOpt ts "outcome_totals") "ties"
          some
            { id := info.1
              teamKey := info.2.1
              name := info.2.2
              seasonTotal := safeParseFloat (getOpt (getOpt teamPoints "team_points") "total") 0
              rank := safeParseInt (getOpt ts "rank") 0
              wins := safeParseInt (getOpt (getOpt ts "outcome_totals") "wins") 0
              losses := safeParseInt (getOpt (getOpt ts "outcome_totals") "losses") 0
              ties := match tiesRaw with
                | some (.jnum q) => q
                | _ => (safeParseInt tiesRaw 0 : ℚ) }
      | _ => none
    | _ => none

/-- Stable insertion placing `t` before the first element of strictly
greater rank — the ascending stable sort `teams.sort((a, b) => a.rank -
b.rank)` performs. -/
def insertByRank (t : NormalizedTeam) : List NormalizedTeam → List NormalizedTeam
  | [] => [t]
  | u :: rest => if t.rank ≤ u.rank then t :: u :: rest else u :: insertByRank t rest

/-- Stable sort of the teams by ascending rank. -/
def sortByRank (teams : List NormalizedTeam) : List NormalizedTeam :=
  teams.foldr insertByRank []

/-- The teams loop of `normalizeLeague`: enumerate the keys of the teams
dictionary, skip the `"count"` sentinel, parse each wrapper and keep the
successes, then sort by rank. -/
def teamsFromData (teamsData : JValue) : List NormalizedTeam :=
  sortByRank
    ((forInFields teamsData).filterMap
      (fun kv => if kv.1 == "count" then none else parseTeam kv.2))

/-- The matchup-object keys the scoreboard merge skips besides the numeric
team slots. -/
def matchupSkipKeys : List String :=
  ["count", "week", "week_start", "week_end", "status", "is_playoffs",
   "is_consolation", "is_matchup_of_the_week", "is_matchup_recap_available"]

/-- Name extraction from a scoreboard team info array: the first record
with a truthy `name`, coerced with `String()`; empty string if none. -/
def nameFromInfo (teamInfoArray : List JValue) : String :=
  match teamInfoArray.find? (fun it => isRecord it && truthyOpt (getField it "name")) with
  | some it =>
    match getField it "name" with
    | some v => jsToString v
    | none => ""
  | none => ""

/-- Score extraction from one scoreboard team wrapper: requires a team
array of length at least 2; the name comes from `team[0]`, the points from
`team[1].team_points.total`; the entry is kept only when the name is
nonempty and the points are strictly positive. -/
def scoreOfTeamWrapper (week : ℤ) (teamWrapper : JValue) : Option WeeklyTeamScore :=
  if !(isRecord teamWrapper && truthyOpt (getField teamWrapper "team")) then none
  else
    match getField teamWrapper "team" with
    | some (.jarr team) =>
      if team.length < 2 then none
      else
        let team0 : Option JValue := team[0]?
        let team1 : Option JValue := team[1]?
        let teamName := match team0 with
          | some (.jarr teamInfoArray) => nameFromInfo teamInfoArray
          | _ => ""
        let teamPoints : ℚ := match team1 with
          | some teamStatsObj =>
            if isRecord teamStatsObj && truthyOpt (getField teamStatsObj "team_points")
                && (match getField teamStatsObj "team_points" with
                    | some tp => isRecord tp
                    | none => false) then
              safeParseFloat (getOpt (getField teamStatsObj "team_points") "total") 0
            else 0
          | none => 0
        if teamName == "" then none
        else if teamPoints > (0 : ℚ) then
          some { week := week, teamName := teamName, score := teamPoints }
        else none
    | _ => none

/-- Scores contributed by one matchup object: its week (defaulting to 1
when the `week` field is falsy, with fallback 0 on unparseable), its team
wrappers collected from the non-metadata keys, and one score per qualifying
wrapper. -/
def scoresFromMatchup (matchupWrapper : Option JValue) : List WeeklyTeamScore :=
  match matchupWrapper with
  | none => []
  | some mw =>
    if !(truthy mw && isRecord mw) then []
    else
      let week : ℤ :=
        if truthyOpt (getField mw "week") then safeParseInt (getField mw "week") 0 else 1
      let matchupTeams : List JValue :=
        (forInFields mw).foldl
          (fun acc kv =>
            if matchupSkipKeys.contains kv.1 then acc
            else if !(isRecord kv.2) then acc
            else
              match getField kv.2 "teams" with
              | some tv =>
                if truthy tv && isRecord tv then
                  acc ++ (forInFields tv).foldl
                    (fun acc2 kv2 =>
                      if kv2.1 == "count" then acc2
                      else if truthy kv2.2 then acc2 ++ [kv2.2] else acc2)
                    []
                else acc
              | none => acc)
          []
      matchupTeams.foldl
        (fun acc tw =>
          match scoreOfTeamWrapper week tw with
          | some s => acc ++ [s]
          | none => acc)
        []

/-- Scores contributed by one scoreboard response: locate
`fantasy_content.league`, scan it for the element with a truthy
`scoreboard`, unwrap the `"0"` key and iterate the `matchups`
dictionary. -/
def scoresFromResponse (singleScoreboardData : JValue) : List WeeklyTeamScore :=
  if !(isRecord singleScoreboardData) then []
  else
    match getOpt (getField singleScoreboardData "fantasy_content") "league" with
    | some (.jarr leagueArr) =>
      match leagueArr.find? (fun item => isRecord item && truthyOpt (getField item "scoreboard")) with
      | some scoreboardWrapper =>
        let sbData := getOpt (getField scoreboardWrapper "scoreboard") "0"
        match getOpt sbData "matchups" with
        | some matchups =>
          if !(truthy matchups) then []
          else
            (forInFields matchups).foldl
              (fun acc kv =>
                if kv.1 == "count" then acc
                else acc ++ scoresFromMatchup (getField kv.2 "matchup"))
              []
        | none => []
      | none => []
    | _ => []

/-- The scoreboard merge loop of `normalizeLeague`: each response of the
(possibly singleton) scoreboard array appends its scores to the shared
`points` accumulator. -/
def mergeScoreboards (scoreboardArray : List JValue) : List WeeklyTeamScore :=
  scoreboardArray.foldl (fun acc sb => acc ++ scoresFromResponse sb) []

/-- The seeded linear congruential generator of `parsers.ts`, one step.
The source computes `(state * 1103515245 + 12345) & 0x7fffffff` on doubles;
the embedding uses the exact integer value reduced mod `2^31` (double
rounding of the product is not modelled; no claim depends on the generated
scores). -/
def lcgNext (state : ℤ) : ℤ :=
  (state * 1103515245 + 12345) % 2147483648

/-- The state after `n + 1` LCG steps from `seed` (the `n`-th random draw
uses this state). -/
def lcgState (seed : ℤ) : ℕ → ℤ
  | 0 => lcgNext seed
  | n + 1 => lcgNext (lcgState seed n)

/-- The `n`-th value of the seeded random stream: `state / 0x7fffffff`. -/
def seededRandomAt (seed : ℤ) (n : ℕ) : ℚ :=
  (lcgState seed n : ℚ) / 2147483647

/-- The `Math.round` function: nearest integer, halves toward positive infinity. -/
def jsRound (q : ℚ) : ℤ :=
  ⌊q + 1 / 2⌋

/-- Options of `normalizeLeague`; missing fields are `undefined` (falsy). -/
structure NormalizeOptions where
  seed : Option ℤ
  useDeterministicScores : Bool
deriving Repr, DecidableEq

/-- The synthetic fallback score generator: for each week and team, a score
around the team's per-week season average with 30% variance, floored at 50.
`randAt n` is the `n`-th draw of the random source in use. -/
def syntheticPoints (teams : List NormalizedTeam) (endWeek : ℤ) (randAt : ℕ → ℚ) :
    List WeeklyTeamScore :=
  (List.range endWeek.toNat).flatMap
    (fun weekIdx =>
      teams.enum.map
        (fun p =>
          let team := p.2
          let avgScore : ℚ := if team.seasonTotal > 0 then team.seasonTotal / (endWeek : ℚ) else 100
          let variance := avgScore * (3 / 10)
          let draw := randAt (weekIdx * teams.length + p.1)
          let score := jsRound (avgScore + (draw - 1 / 2) * variance * 2)
          { week := ((weekIdx : ℤ) + 1)
            teamName := team.name
            score := (max 50 score : ℤ) }))

/-- The normalizer `normalizeLeague` (`parsers.ts`, three-argument version): validate the
standings response, extract league identity and teams, merge scoreboard
responses into weekly scores, and fall back to synthetic scores when the
merge yields nothing.  `entropy` models the successive draws of
`Math.random` for the non-deterministic path. -/
def normalizeLeague (standingsData : JValue) (scoreboardData : Option JValue)
    (options : NormalizeOptions) (entropy : ℕ → ℚ) : NormalizedLeague :=
  if !(isLeagueStandingsResponse standingsData) then emptyLeague
  else
    match getOpt (getField standingsData "fantasy_content") "league" with
    | some (.jarr leagueArray) =>
      match findLeagueInfo leagueArray with
      | none => emptyLeague
      | some leagueInfo =>
        match findStandingsWrapper leagueArray with
        | none => emptyLeague
        | some standingsWrapper =>
          let leagueId : JValue := match getField leagueInfo "league_id" with
            | some v => if truthy v then v else .jstr "unknown"
            | none => .jstr "unknown"
          let leagueName : JValue := match getField leagueInfo "name" with
            | some v => if truthy v then v else .jstr "Unknown League"
            | none => .jstr "Unknown League"
          let endWeek := safeParseInt (getField leagueInfo "end_week") 17
          match getField standingsWrapper "standings" with
          | some (.jarr standingsArray) =>
            match getOpt standingsArray[0]? "teams" with
            | some teamsData =>
              if !(truthy teamsData) then
                { id := leagueId, name := leagueName, teams := [], points := [] }
              else
                let teams := teamsFromData teamsData
                let merged : List WeeklyTeamScore :=
                  match scoreboardData with
                  | some sb =>
                    if truthy sb then
                      mergeScoreboards (match sb with | .jarr xs => xs | v => [v])
                    else []
                  | none => []
                let points :=
                  if merged.isEmpty then
                    syntheticPoints teams endWeek
                      (if options.useDeterministicScores then
                        seededRandomAt (match options.seed with | some s => s | none => 42)
                       else entropy)
                  else merged
                { id := leagueId, name := leagueName, teams := teams, points := points }
            | none => { id := leagueId, name := leagueName, teams := [], points := [] }
          | _ => { id := leagueId, name := leagueName, teams := [], points := [] }
    | _ => emptyLeague

/-! ## Player weekly stats and season summaries -/

/-- One normalized player week (`PlayerWeeklyStats` of `yahoo-types.ts`). -/
structure PlayerWeeklyStats where
  week : ℤ
  projectedPoints : ℚ
  actualPoints : ℚ
  difference : ℚ
  percentDifference : ℚ
  breakdown : Option (List BreakdownItem)
deriving Repr, DecidableEq

/-- The per-week record built by `SleeperService.getPlayerSeasonStats` from
the stats and projections snapshots of one week: both are run through the
points engine; `percentDifference` is 0 unless the projection is strictly
positive; the breakdown is attached only for played weeks. -/
def processWeek (week : ℤ) (stats projections : List (String × ℚ))
    (scoringRules : List (ℤ × ℚ)) : PlayerWeeklyStats :=
  let actualResult := calculateFantasyPoints stats scoringRules
  let projectedResult := calculateFantasyPoints projections scoringRules
  { week := week
    projectedPoints := projectedResult.1
    actualPoints := actualResult.1
    difference := actualResult.1 - projectedResult.1
    percentDifference :=
      if projectedResult.1 > 0 then
        (actualResult.1 - projectedResult.1) / projectedResult.1 * 100
      else 0
    breakdown :=
      if actualResult.1 > 0 && !actualResult.2.isEmpty then some actualResult.2
      else none }

/-- The derived season summary (`summary` of `NormalizedPlayerStats`). -/
structure PlayerSummary where
  totalProjected : ℚ
  totalActual : ℚ
  totalDifference : ℚ
  averageProjected : ℚ
  averageActual : ℚ
  weeksPlayed : ℕ
  accuracyRate : ℚ
deriving Repr, DecidableEq

/-- The summary computation of `SleeperService.getPlayerSeasonStats`
(lines 492–509): totals and averages range over played weeks (nonzero
actual points); the accurate-week count requires a strictly positive
projection in addition to `|percentDifference| ≤ 20`. -/
def sleeperSummary (weeklyData : List PlayerWeeklyStats) : PlayerSummary :=
  let playedWeeks := weeklyData.filter (fun w => decide (w.actualPoints > 0))
  let gamesPlayed := playedWeeks.length
  let totalActual := playedWeeks.foldl (fun sum w => sum + w.actualPoints) 0
  let totalProjected := playedWeeks.foldl (fun sum w => sum + w.projectedPoints) 0
  let accurateWeeks :=
    (playedWeeks.filter
      (fun w => decide (w.projectedPoints > 0) && decide (|w.percentDifference| ≤ 20))).length
  { totalProjected := totalProjected
    totalActual := totalActual
    totalDifference := totalActual - totalProjected
    averageProjected := if gamesPlayed > 0 then totalProjected / (gamesPlayed : ℚ) else 0
    averageActual := if gamesPlayed > 0 then totalActual / (gamesPlayed : ℚ) else 0
    weeksPlayed := gamesPlayed
    accuracyRate :=
      if gamesPlayed > 0 then ((accurateWeeks : ℚ) / (gamesPlayed : ℚ)) * 100 else 0 }

/-- The running-average projection substitution of
`parsers.normalizePlayerStats` (lines 925–944): a week with zero projection
but positive actual points gets its own actual (first week) or the running
average of prior actuals as projection, and its difference and
percentDifference recomputed. -/
def substituteProjections (weeklyData : List PlayerWeeklyStats) : List PlayerWeeklyStats :=
  (weeklyData.foldl
    (fun (acc : List PlayerWeeklyStats × ℕ × ℚ) week =>
      let index := acc.2.1
      let runningTotal := acc.2.2
      let week' :=
        if week.projectedPoints == 0 && decide (week.actualPoints > 0) then
          let newProj := if index == 0 then week.actualPoints else runningTotal / (index : ℚ)
          { week with
            projectedPoints := newProj
            difference := week.actualPoints - newProj
            percentDifference :=
              if newProj > 0 then (week.actualPoints - newProj) / newProj * 100 else 0 }
        else week
      (acc.1 ++ [week'], index + 1, runningTotal + week'.actualPoints))
    ([], 0, 0)).1

/-- The summary computation of `parsers.normalizePlayerStats`
(lines 946–979), applied to the (already substituted) weekly data: totals
range over all weeks, averages divide by played weeks, and the
accurate-week count ranges over ALL weeks with `|percentDifference| ≤ 20`
— played or not — divided by the played-week count. -/
def parsersSummary (weeklyData : List PlayerWeeklyStats) : PlayerSummary :=
  let totalProjected := weeklyData.foldl (fun sum w => sum + w.projectedPoints) 0
  let totalActual := weeklyData.foldl (fun sum w => sum + w.actualPoints) 0
  let weeksPlayed := (weeklyData.filter (fun w => decide (w.actualPoints > 0))).length
  let accurateWeeks :=
    (weeklyData.filter (fun w => decide (|w.percentDifference| ≤ 20))).length
  { totalProjected := totalProjected
    totalActual := totalActual
    totalDifference := totalActual - totalProjected
    averageProjected := if weeksPlayed > 0 then totalProjected / (weeksPlayed : ℚ) else 0
    averageActual := if weeksPlayed > 0 then totalActual / (weeksPlayed : ℚ) else 0
    weeksPlayed := weeksPlayed
    accuracyRate :=
      if weeksPlayed > 0 then ((accurateWeeks : ℚ) / (weeksPlayed : ℚ)) * 100 else 0 }

/-! ## Concrete fixtures used by the theorems below -/

/-- A constant (zero) entropy oracle standing in for `Math.random` where the
drawn values are irrelevant. -/
def noEntropy : ℕ → ℚ := fun _ => 0

/-- The default options object `{}`. -/
def defaultOptions : NormalizeOptions := ⟨none, false⟩

/-- The spec's example snapshot: 275 passing yards, 2 passing TDs, 1
interception. -/
def exampleSnapshot : List (String × ℚ) :=
  [("pass_yd", 275), ("pass_td", 2), ("pass_int", 1)]

/-- The spec's example rule table: passing yards 0.04, passing TD 4,
interception −2 (Yahoo stat ids 4, 5, 6). -/
def exampleRules : List (ℤ × ℚ) :=
  [(4, mkRat 4 100), (5, 4), (6, -2)]

/-- A well-formed team info array. -/
def fixtureInfoArray : JValue :=
  .jarr [.jobj [("team_id", .jstr "1"), ("team_key", .jstr "331.l.0.t.1"),
                ("name", .jstr "Alpha")]]

/-- A well-formed team standings object. -/
def fixtureStandings : JValue :=
  .jobj [("team_standings",
    .jobj [("rank", .jstr "1"),
           ("outcome_totals",
            .jobj [("wins", .jstr "3"), ("losses", .jstr "2"), ("ties", .jstr "0")])])]

/-- A team wrapper whose `team_points.total` is the given value; all other
components well-formed. -/
def teamWrapperWith (total : JValue) : JValue :=
  .jobj [("team", .jarr [fixtureInfoArray,
                         .jobj [("team_points", .jobj [("total", total)])],
                         fixtureStandings])]

/-- A standings response in upstream element order — league info at index
0, standings at index 1 — around an arbitrary teams dictionary. -/
def mkStandingsInput (entries : List (String × JValue)) : JValue :=
  .jobj [("fantasy_content", .jobj [("league", .jarr [
    .jobj [("league_id", .jstr "329011"), ("name", .jstr "L"), ("end_week", .jstr "2")],
    .jobj [("standings", .jarr [.jobj [("teams", .jobj entries)]])]])])]

/-- The same response with the two league-array elements in the opposite
order (standings first, league info second); both discriminator-bearing
elements are still present. -/
def mkSwappedInput (entries : List (String × JValue)) : JValue :=
  .jobj [("fantasy_content", .jobj [("league", .jarr [
    .jobj [("standings", .jarr [.jobj [("teams", .jobj entries)]])],
    .jobj [("league_id", .jstr "329011"), ("name", .jstr "L"), ("end_week", .jstr "2")]])])]

/-- A one-team teams dictionary with the usual `"count"` sentinel. -/
def fixtureTeamsEntries : List (String × JValue) :=
  [("0", teamWrapperWith (.jstr "100")), ("count", .jnum 1)]

/-- A scoreboard team wrapper: name `Alpha`, 101.5 points. -/
def sbTeamWrapper : JValue :=
  .jobj [("team", .jarr [.jarr [.jobj [("name", .jstr "Alpha")]],
                         .jobj [("team_points", .jobj [("total", .jstr "101.5")])]])]

/-- A scoreboard matchup for week 1 containing that one team. -/
def sbMatchup : JValue :=
  .jobj [("week", .jstr "1"), ("status", .jstr "postevent"),
         ("0", .jobj [("teams", .jobj [("0", sbTeamWrapper), ("count", .jnum 1)])])]

/-- A full scoreboard response containing that one matchup. -/
def sbResponse : JValue :=
  .jobj [("fantasy_content", .jobj [("league", .jarr [
    .jobj [("league_id", .jstr "329011")],
    .jobj [("scoreboard", .jobj [("0", .jobj [("matchups",
      .jobj [("0", .jobj [("matchup", sbMatchup)]), ("count", .jnum 1)])])])]])])]

/-- Four played weeks whose percent differences are 5, −15, 22 and −3
(projection 100 each, actuals 105, 85, 122, 97), built end-to-end through
the points engine with a 1-point-per-passing-yard rule. -/
def accuracyExampleWeeks : List PlayerWeeklyStats :=
  [processWeek 1 [("pass_yd", 105)] [("pass_yd", 100)] [(4, 1)],
   processWeek 2 [("pass_yd", 85)] [("pass_yd", 100)] [(4, 1)],
   processWeek 3 [("pass_yd", 122)] [("pass_yd", 100)] [(4, 1)],
   processWeek 4 [("pass_yd", 97)] [("pass_yd", 100)] [(4, 1)]]

/-- A single played week with no projection data at all: 5 actual points,
projection 0, hence `percentDifference = 0`. -/
def zeroProjWeek : List PlayerWeeklyStats :=
  [processWeek 1 [("pass_yd", 125)] [] [(4, mkRat 4 100)]]

/-! ## Helper lemmas -/

/-- A `foldl` with an appending step is `flatMap`. -/
theorem foldl_append_eq_flatMap {α β : Type} (f : α → List β) (l : List α) (a : List β) :
    l.foldl (fun acc x => acc ++ f x) a = a ++ l.flatMap f := by
  induction l generalizing a with
  | nil => simp
  | cons x xs ih => simp [ih, List.append_assoc]

/-- Inserting by rank adds one element. -/
theorem length_insertByRank (t : NormalizedTeam) (l : List NormalizedTeam) :
    (insertByRank t l).length = l.length + 1 := by
  induction l with
  | nil => rfl
  | cons u rest ih =>
    by_cases h : t.rank ≤ u.rank <;> simp [insertByRank, h, ih]

/-- Membership in an insertion by rank. -/
theorem mem_insertByRank {t u : NormalizedTeam} {l : List NormalizedTeam} :
    u ∈ insertByRank t l ↔ u = t ∨ u ∈ l := by
  induction l with
  | nil => simp [insertByRank]
  | cons v rest ih =>
    by_cases h : t.rank ≤ v.rank
    · rw [insertByRank, if_pos h]
      simp only [List.mem_cons]
    · rw [insertByRank, if_neg h]
      simp only [List.mem_cons, ih]
      tauto

/-- Sorting by rank preserves length. -/
theorem length_sortByRank (l : List NormalizedTeam) :
    (sortByRank l).length = l.length := by
  induction l with
  | nil => rfl
  | cons t rest ih =>
    simp [sortByRank] at ih ⊢
    rw [length_insertByRank, ih]

/-- Sorting by rank preserves membership. -/
theorem mem_sortByRank {t : NormalizedTeam} {l : List NormalizedTeam} :
    t ∈ sortByRank l ↔ t ∈ l := by
  induction l with
  | nil => simp [sortByRank]
  | cons u rest ih =>
    simp [sortByRank] at ih ⊢
    rw [mem_insertByRank]
    tauto

/-- Per-entry accounting of the teams loop: parsed teams plus skipped
malformed entries exhaust the non-sentinel entries. -/
theorem filterMap_parseTeam_accounting (entries : List (String × JValue)) :
    (entries.filterMap (fun kv => if kv.1 == "count" then none else parseTeam kv.2)).length
      + (entries.filter (fun kv => !(kv.1 == "count") && (parseTeam kv.2).isNone)).length
    = (entries.filter (fun kv => !(kv.1 == "count"))).length := by
  induction entries with
  | nil => rfl
  | cons kv rest ih =>
    simp only [List.filterMap_cons, List.filter_cons]
    by_cases hc : kv.1 = "count"
    · simp only [hc, beq_self_eq_true, if_true, Bool.not_true, Bool.false_and,
        Bool.false_eq_true, if_false]
      simpa using ih
    · cases hp : parseTeam kv.2 with
      | none =>
        simp [hc, hp]
        simp at ih
        omega
      | some t =>
        simp [hc, hp]
        simp at ih
        omega

/-! ## Claim theorems -/

unseal Rat.add Rat.mul Rat.inv Rat.sub Rat.ofScientific in
/-- C1: with rule table `{passing yards: 0.04, passing TD: 4, interception:
−2}` and a raw snapshot of 275 passing yards, 2 passing TDs and 1
interception, `calculateFantasyPoints` returns exactly 17 points and an
itemized breakdown of exactly three line items, each with a nonzero stat
value. -/
theorem points_engine_example :
    calculateFantasyPoints exampleSnapshot exampleRules
      = (17, [⟨"pass_yd", 275, 11⟩, ⟨"pass_td", 2, 8⟩, ⟨"pass_int", 1, -2⟩])
    ∧ (calculateFantasyPoints exampleSnapshot exampleRules).2.length = 3
    ∧ (calculateFantasyPoints exampleSnapshot exampleRules).2.all
        (fun b => !(b.value == 0)) = true := by
  refine ⟨?_, ?_, ?_⟩ <;> decide

unseal Rat.add Rat.mul Rat.inv Rat.sub Rat.ofScientific in
/-- C10: a team whose `team_points.total` is the JSON number `0` (or the
empty string) is rejected by `parseTeam` exactly like a missing points
object — `normalizeLeague` drops it — while the string `"0"` is kept (with
season total 0). -/
theorem falsy_total_team_dropped :
    parseTeam (teamWrapperWith (.jnum 0)) = none
    ∧ parseTeam (teamWrapperWith (.jstr "")) = none
    ∧ (parseTeam (teamWrapperWith (.jstr "0"))).isSome = true
    ∧ (parseTeam (teamWrapperWith (.jstr "0"))).map (fun t => t.seasonTotal) = some 0
    ∧ (normalizeLeague
        (mkStandingsInput
          [("0", teamWrapperWith (.jnum 0)), ("1", teamWrapperWith (.jstr "100")),
           ("count", .jnum 2)])
        none defaultOptions noEntropy).teams.length = 1 := by
  refine ⟨?_, ?_, ?_, ?_, ?_⟩ <;> decide

unseal Rat.add Rat.mul Rat.inv Rat.sub Rat.ofScientific in
/-- C2: the claim (scan-not-index: reordering the league array's
discriminator-bearing elements must not change the parsed result) fails on
the code: `isLeagueStandingsResponse` tests `league[0].league_id` and
`league[1].standings` positionally, so the same response with its two
elements swapped parses to the empty result, while the original order
parses the team. -/
theorem standings_guard_positional :
    isLeagueStandingsResponse (mkSwappedInput fixtureTeamsEntries) = false
    ∧ normalizeLeague (mkSwappedInput fixtureTeamsEntries) none defaultOptions noEntropy
        = emptyLeague
    ∧ (normalizeLeague (mkStandingsInput fixtureTeamsEntries) none defaultOptions
        noEntropy).teams.length = 1 := by
  refine ⟨by decide, rfl, by decide⟩

/-- C3: `normalizeLeague` is total (the embedding has no exceptional
paths), and on any input the type guard does not recognize — whatever the
scoreboard argument, options and entropy — it returns the well-formed empty
result with `teams = []` and `points = []`. -/
theorem normalizeLeague_unrecognized_empty (raw : JValue) (sb : Option JValue)
    (opts : NormalizeOptions) (entropy : ℕ → ℚ)
    (h : isLeagueStandingsResponse raw = false) :
    normalizeLeague raw sb opts entropy = emptyLeague := by
  unfold normalizeLeague
  rw [h]
  rfl

/-- Witness for C3 at the input `null`. -/
theorem normalizeLeague_unrecognized_empty_witness :
    isLeagueStandingsResponse .jnull = false
    ∧ normalizeLeague .jnull none defaultOptions noEntropy = emptyLeague :=
  ⟨by decide, normalizeLeague_unrecognized_empty .jnull none defaultOptions noEntropy (by decide)⟩

/-- C5: a cached weekly entry for a week strictly before the current week
is served no matter how old its timestamp is (no fetch); an entry for the
current week is served exactly when it is less than one hour old, and
otherwise treated as stale, triggering a fetch. -/
theorem week_cache_ttl_policy {α : Type} (c : WeekCacheFile α)
    (week currentWeek now : ℤ) (fetched : α) :
    (week < currentWeek →
      getWeekStats (some c) week currentWeek now fetched = (c.data, false))
    ∧ (week = currentWeek →
        (now - c.timestamp < 60 * 60 * 1000 →
          getWeekStats (some c) week currentWeek now fetched = (c.data, false))
        ∧ (60 * 60 * 1000 ≤ now - c.timestamp →
          getWeekStats (some c) week currentWeek now fetched = (fetched, true))) := by
  refine ⟨fun h => ?_, fun h => ⟨fun h2 => ?_, fun h2 => ?_⟩⟩
  · simp [getWeekStats, getCachedWeekData, h]
  · subst h
    simp only [getWeekStats, getCachedWeekData]
    rw [if_neg (lt_irrefl week), if_pos trivial, if_pos (by omega)]
  · subst h
    simp only [getWeekStats, getCachedWeekData]
    rw [if_neg (lt_irrefl week), if_pos trivial, if_neg (by omega)]

/-- Witness for C5: a two-year-old past-week entry is served; a stale
current-week entry (two hours old) triggers a fetch; a fresh current-week
entry is served. -/
theorem week_cache_ttl_policy_witness :
    ((3 : ℤ) < 8
      ∧ getWeekStats (some (⟨"cached", 0⟩ : WeekCacheFile String)) 3 8 63072000000 "live"
          = ("cached", false))
    ∧ getWeekStats (some (⟨"cached", 0⟩ : WeekCacheFile String)) 8 8 7200000 "live"
        = ("live", true)
    ∧ getWeekStats (some (⟨"cached", 0⟩ : WeekCacheFile String)) 8 8 1000 "live"
        = ("cached", false) :=
  ⟨⟨by decide,
    (week_cache_ttl_policy (⟨"cached", 0⟩ : WeekCacheFile String) 3 8 63072000000 "live").1
      (by decide)⟩,
   ((week_cache_ttl_policy (⟨"cached", 0⟩ : WeekCacheFile String) 8 8 7200000 "live").2
      rfl).2 (by decide),
   ((week_cache_ttl_policy (⟨"cached", 0⟩ : WeekCacheFile String) 8 8 1000 "live").2
      rfl).1 (by decide)⟩

/-- C9: `getAccessToken` returns `null` when no credential is stored; when
the stored credential is within the five-minute margin of expiry and the
refresh fails (rejected or thrown), it returns `null` — never the stale
stored token; and any token it does return is either the still-valid
stored token or the freshly refreshed one.  Totality of the embedding
reflects that refresh exceptions are caught inside the store. -/
theorem token_store_refresh_failure (stored : Option StoredToken) (now : ℤ)
    (ro : RefreshOutcome) :
    (stored = none → getAccessToken stored now ro = none)
    ∧ (∀ s, stored = some s → ¬(now + 5 * 60 * 1000 < s.expiresAt) →
        (ro = .ok none ∨ (∃ e, ro = .error e)) →
        getAccessToken stored now ro = none)
    ∧ (∀ s t, stored = some s → getAccessToken stored now ro = some t →
        (now + 5 * 60 * 1000 < s.expiresAt ∧ t = s.tokens.access_token)
        ∨ (∃ nt, ro = .ok (some nt) ∧ t = nt.access_token)) := by
  refine ⟨fun h => by simp [getAccessToken, h], fun s hs hvalid hfail => ?_,
    fun s t hs ht => ?_⟩
  · subst hs
    rcases hfail with h | ⟨e, h⟩ <;> subst h <;> simp [getAccessToken] <;> omega
  · subst hs
    simp only [getAccessToken] at ht
    by_cases hv : now + 5 * 60 * 1000 < s.expiresAt
    · rw [if_pos hv] at ht
      exact Or.inl ⟨hv, (Option.some_inj.mp ht).symm⟩
    · rw [if_neg hv] at ht
      rcases ro with e | onr
      · simp at ht
      · rcases onr with _ | nt
        · simp at ht
        · simp only [] at ht
          exact Or.inr ⟨nt, rfl, (Option.some_inj.mp ht).symm⟩

/-- Witness for C9: an expiring credential with a rejected refresh yields
`null`. -/
theorem token_store_refresh_failure_witness :
    getAccessToken (some ⟨⟨"stale", "refresh", 3600⟩, 1000, "user1"⟩) 1000000 (.ok none)
      = none :=
  (token_store_refresh_failure
      (some ⟨⟨"stale", "refresh", 3600⟩, 1000, "user1"⟩) 1000000 (.ok none)).2.1
    ⟨⟨"stale", "refresh", 3600⟩, 1000, "user1"⟩ rfl (by decide) (Or.inl rfl)

/-- C4: for a standings response over an arbitrary teams dictionary,
`normalizeLeague` skips each malformed team entry and keeps every
well-formed sibling: the team count equals the non-sentinel entry count
minus the malformed entry count, and every successfully parsed team occurs
in the result. -/
theorem teams_malformed_entries_skipped (entries : List (String × JValue))
    (sb : Option JValue) (opts : NormalizeOptions) (entropy : ℕ → ℚ) :
    (normalizeLeague (mkStandingsInput entries) sb opts entropy).teams.length
        = (entries.filter (fun kv => !(kv.1 == "count"))).length
          - (entries.filter (fun kv => !(kv.1 == "count") && (parseTeam kv.2).isNone)).length
    ∧ (∀ kv ∈ entries, kv.1 ≠ "count" → ∀ t, parseTeam kv.2 = some t →
        t ∈ (normalizeLeague (mkStandingsInput entries) sb opts entropy).teams) := by
  have hteams : (normalizeLeague (mkStandingsInput entries) sb opts entropy).teams
      = teamsFromData (.jobj entries) := rfl
  constructor
  · rw [hteams]
    unfold teamsFromData
    simp only [forInFields]
    rw [length_sortByRank]
    have := filterMap_parseTeam_accounting entries
    omega
  · intro kv hkv hknc t ht
    rw [hteams]
    unfold teamsFromData
    rw [mem_sortByRank]
    refine List.mem_filterMap.mpr ⟨kv, hkv, ?_⟩
    simp [hknc, ht]

unseal Rat.add Rat.mul Rat.inv Rat.sub Rat.ofScientific in
/-- Witness for C4: one well-formed team, one malformed (`null`) sibling
and the `"count"` sentinel yield exactly one team, and the parsed team is
in the result. -/
theorem teams_malformed_entries_skipped_witness :
    (normalizeLeague
        (mkStandingsInput [("0", teamWrapperWith (.jstr "100")), ("1", .jnull), ("count", .jnum 2)])
        none defaultOptions noEntropy).teams.length = 1
    ∧ (⟨"1", "331.l.0.t.1", "Alpha", 100, 1, 3, 2, 0⟩ : NormalizedTeam)
        ∈ (normalizeLeague
            (mkStandingsInput
              [("0", teamWrapperWith (.jstr "100")), ("1", .jnull), ("count", .jnum 2)])
            none defaultOptions noEntropy).teams := by
  have h := teams_malformed_entries_skipped
    [("0", teamWrapperWith (.jstr "100")), ("1", .jnull), ("count", .jnum 2)]
    none defaultOptions noEntropy
  refine ⟨by rw [h.1]; decide, ?_⟩
  refine h.2 ("0", teamWrapperWith (.jstr "100")) (by simp) (by decide) _ (by decide)

unseal Rat.add Rat.mul Rat.inv Rat.sub Rat.ofScientific in
/-- C8 (counterexample): merging the same scoreboard response twice
produces two identical `WeeklyTeamScore` entries for `(week 1, "Alpha")`
in the returned league — no deduplication happens, refuting the at-most-one
per `(week, teamName)` invariant. -/
theorem merge_duplicates_retained :
    (normalizeLeague (mkStandingsInput fixtureTeamsEntries)
        (some (.jarr [sbResponse, sbResponse])) defaultOptions noEntropy).points
      = [⟨1, "Alpha", mkRat 203 2⟩, ⟨1, "Alpha", mkRat 203 2⟩]
    ∧ ((normalizeLeague (mkStandingsInput fixtureTeamsEntries)
        (some (.jarr [sbResponse, sbResponse])) defaultOptions noEntropy).points.filter
          (fun p => p.week == 1 && p.teamName == "Alpha")).length = 2 := by
  refine ⟨by decide, by decide⟩

/-- C8 (amended): the scoreboard merge simply appends each response's
qualifying scores in encounter order — merging performs no last-write-wins
deduplication, so a response repeated in the input contributes its scores
twice. -/
theorem merge_appends_no_dedup (sb : JValue) (rest : List JValue) :
    mergeScoreboards (sb :: rest) = scoresFromResponse sb ++ mergeScoreboards rest
    ∧ mergeScoreboards (sb :: sb :: rest)
        = scoresFromResponse sb ++ (scoresFromResponse sb ++ mergeScoreboards rest) := by
  have hflat : ∀ l : List JValue, mergeScoreboards l = l.flatMap scoresFromResponse := by
    intro l
    unfold mergeScoreboards
    rw [foldl_append_eq_flatMap]
    rfl
  constructor
  · rw [hflat, hflat, List.flatMap_cons]
  · rw [hflat, hflat, List.flatMap_cons, List.flatMap_cons]

unseal Rat.add Rat.mul Rat.inv Rat.sub Rat.ofScientific in
/-- C7 (counterexample): a season with a single played week whose
projection is zero (no projection data) has `percentDifference = 0`,
within the 20% band, so the claimed formula (percentage of played weeks
within 20%) demands `accuracyRate = 100`; the code computes 0 because its
accurate-week filter additionally requires a strictly positive
projection. -/
theorem accuracy_rate_zero_projection_counterexample :
    (sleeperSummary zeroProjWeek).weeksPlayed = 1
    ∧ (zeroProjWeek.filter
        (fun w => decide (w.actualPoints > 0) && decide (|w.percentDifference| ≤ 20))).length = 1
    ∧ (sleeperSummary zeroProjWeek).accuracyRate = 0
    ∧ (0 : ℚ) ≠ 100 * 1 / 1 := by
  refine ⟨by decide, by decide, by decide, by decide⟩

/-- C7 (amended): in `getPlayerSeasonStats` the `accuracyRate` equals 100
times the number of played weeks with a strictly positive projection and
`|percentDifference| ≤ 20`, divided by the number of played weeks (weeks
with nonzero actual points). -/
theorem accuracy_rate_formula (ws : List PlayerWeeklyStats)
    (h : 0 < (ws.filter (fun w => decide (w.actualPoints > 0))).length) :
    (sleeperSummary ws).accuracyRate
      = 100 * ((ws.filter (fun w => decide (w.projectedPoints > 0)
            && decide (|w.percentDifference| ≤ 20) && decide (w.actualPoints > 0))).length : ℚ)
          / ((ws.filter (fun w => decide (w.actualPoints > 0))).length : ℚ) := by
  unfold sleeperSummary
  simp only [List.filter_filter]
  rw [if_pos h]
  ring

unseal Rat.add Rat.mul Rat.inv Rat.sub Rat.ofScientific in
/-- Witness for C7: four played weeks with positive projections and
percent differences 5, −15, 22, −3 give an accuracy rate of 75. -/
theorem accuracy_rate_formula_witness :
    (sleeperSummary accuracyExampleWeeks).accuracyRate = 75 := by
  have h := accuracy_rate_formula accuracyExampleWeeks (by decide)
  rw [h]
  decide

/-- Lookup after overwrite-in-place (`Map.set` when the key is present). -/
theorem mapGet_map_overwrite (m : List (ℤ × ℚ)) (k id : ℤ) (v : ℚ) :
    mapGet (m.map (fun p => if p.1 == k then (k, v) else p)) id
      = if id = k then (if mapHas m k then some v else none) else mapGet m id := by
  induction m with
  | nil =>
    by_cases h : id = k
    · simp [mapGet, mapHas, h]
    · simp [mapGet, mapHas, h]
  | cons p rest ih =>
    have hcons : mapHas (p :: rest) k = ((p.1 == k) || mapHas rest k) := by
      simp [mapHas, List.any_cons]
    by_cases hp : p.1 = k
    · by_cases hid : id = k
      · subst hid
        simp [mapGet, mapHas, List.find?_cons, hp]
      · have hpid : p.1 ≠ id := fun hc => hid (hc ▸ hp)
        have hki : (k == id) = false := beq_eq_false_iff_ne.mpr (Ne.symm hid)
        have hpi : (p.1 == id) = false := beq_eq_false_iff_ne.mpr hpid
        simp only [List.map_cons, hp, beq_self_eq_true, if_true]
        simp only [mapGet, List.find?_cons, hki, hpi, Bool.false_eq_true, if_false] at ih ⊢
        rw [if_neg hid] at ih ⊢
        exact ih
    · have hpk : (p.1 == k) = false := beq_eq_false_iff_ne.mpr hp
      by_cases hq : p.1 = id
      · have hidk : id ≠ k := fun hc => hp (hq.trans hc)
        simp [mapGet, List.find?_cons, hp, hq, hidk]
      · have hpi : (p.1 == id) = false := beq_eq_false_iff_ne.mpr hq
        simp only [List.map_cons, hpk, Bool.false_eq_true, if_false]
        simp only [mapGet, List.find?_cons, hpi, Bool.false_eq_true, if_false] at ih ⊢
        rw [hcons, hpk]
        simpa [mapGet] using ih

/-- Lookup after append (`Map.set` when the key is absent). -/
theorem mapGet_append_single (m : List (ℤ × ℚ)) (k id : ℤ) (v : ℚ)
    (hhas : ¬mapHas m k = true) :
    mapGet (m ++ [(k, v)]) id = if id = k then some v else mapGet m id := by
  induction m with
  | nil =>
    by_cases h : id = k
    · simp [mapGet, h]
    · simp [mapGet, h]
      omega
  | cons p rest ih =>
    have hcons : mapHas (p :: rest) k = ((p.1 == k) || mapHas rest k) := by
      simp [mapHas, List.any_cons]
    have hpk : (p.1 == k) = false := by
      cases hb : (p.1 == k)
      · rfl
      · exact absurd (by rw [hcons]; simp [hb]) hhas
    have hrest : ¬mapHas rest k := by
      intro hc
      exact hhas (by rw [hcons]; simp [hc])
    by_cases hq : p.1 = id
    · have hidk : id ≠ k := by
        intro hc
        rw [hq, hc] at hpk
        simp at hpk
      simp [mapGet, List.find?_cons, hq, hidk]
    · have hpi : (p.1 == id) = false := beq_eq_false_iff_ne.mpr hq
      simp only [List.cons_append, mapGet, List.find?_cons, hpi, Bool.false_eq_true, if_false]
      simpa [mapGet] using ih hrest

/-- Lookup after `Map.set`: the written key reads back the written value;
every other key is untouched. -/
theorem mapGet_mapSet (m : List (ℤ × ℚ)) (k id : ℤ) (v : ℚ) :
    mapGet (mapSet m k v) id = if id = k then some v else mapGet m id := by
  unfold mapSet
  by_cases hhas : mapHas m k
  · rw [if_pos hhas, mapGet_map_overwrite, if_pos hhas]
  · rw [if_neg hhas, mapGet_append_single m k id v hhas]

/-- The `Map.has` test agrees with `Map.get` success. -/
theorem mapHas_eq_isSome (m : List (ℤ × ℚ)) (k : ℤ) :
    mapHas m k = (mapGet m k).isSome := by
  induction m with
  | nil => rfl
  | cons p rest ih =>
    cases hb : (p.1 == k) <;>
      simp only [mapHas, mapGet, List.any_cons, List.find?_cons, hb] <;>
      first
      | rfl
      | (simp only [Bool.false_or]
         simpa [mapHas, mapGet] using ih)

/-- Key presence after `Map.set`. -/
theorem mapHas_mapSet (m : List (ℤ × ℚ)) (k id : ℤ) (v : ℚ) :
    mapHas (mapSet m k v) id = ((id == k) || mapHas m id) := by
  rw [mapHas_eq_isSome, mapGet_mapSet]
  by_cases h : id = k <;> simp [h, mapHas_eq_isSome]

/-- A stat id no modifier supplies (with a parseable value) is left alone
by the modifier fold of `getScoringRules`. -/
theorem mapGet_rulesFold_unsupplied (mods : List StatModifier) (acc : List (ℤ × ℚ)) (id : ℤ)
    (h : mods.any (fun sm => sm.statId == id && (jsParseFloatStr sm.value).isSome) = false) :
    mapGet (mods.foldl (fun m sm =>
      match jsParseFloatStr sm.value with
      | some pts => mapSet m sm.statId pts
      | none => m) acc) id = mapGet acc id := by
  induction mods generalizing acc with
  | nil => rfl
  | cons sm rest ih =>
    simp only [List.any_cons, Bool.or_eq_false_iff] at h
    obtain ⟨h1, h2⟩ := h
    rw [List.foldl_cons, ih _ h2]
    cases hp : jsParseFloatStr sm.value with
    | none => simp only [hp]
    | some pts =>
      simp only [hp]
      rw [mapGet_mapSet]
      have hne : id ≠ sm.statId := by
        intro hc
        rw [hp] at h1
        simp [hc] at h1
      rw [if_neg hne]

/-- The modifier fold never removes a key. -/
theorem mapHas_rulesFold_mono (mods : List StatModifier) (acc : List (ℤ × ℚ)) (id : ℤ)
    (h : mapHas acc id = true) :
    mapHas (mods.foldl (fun m sm =>
      match jsParseFloatStr sm.value with
      | some pts => mapSet m sm.statId pts
      | none => m) acc) id = true := by
  induction mods generalizing acc with
  | nil => exact h
  | cons sm rest ih =>
    rw [List.foldl_cons]
    refine ih _ ?_
    cases hp : jsParseFloatStr sm.value with
    | none => simpa only [hp] using h
    | some pts =>
      simp only [hp]
      rw [mapHas_mapSet, h]
      simp

/-- A stat id some modifier supplies with a parseable value ends up in the
fold result. -/
theorem mapHas_rulesFold_supplied (mods : List StatModifier) (acc : List (ℤ × ℚ)) (id : ℤ)
    (h : mods.any (fun sm => sm.statId == id && (jsParseFloatStr sm.value).isSome) = true) :
    mapHas (mods.foldl (fun m sm =>
      match jsParseFloatStr sm.value with
      | some pts => mapSet m sm.statId pts
      | none => m) acc) id = true := by
  induction mods generalizing acc with
  | nil => simp at h
  | cons sm rest ih =>
    rw [List.foldl_cons]
    by_cases hr : rest.any (fun sm => sm.statId == id && (jsParseFloatStr sm.value).isSome) = true
    · exact ih _ hr
    · simp only [List.any_cons, Bool.or_eq_true] at h
      rcases h with hhead | htail
      · rw [Bool.and_eq_true] at hhead
        obtain ⟨hid, hsome⟩ := hhead
        cases hp : jsParseFloatStr sm.value with
        | none => rw [hp] at hsome; simp at hsome
        | some pts =>
          simp only [hp]
          refine mapHas_rulesFold_mono rest _ id ?_
          rw [mapHas_mapSet]
          have : id = sm.statId := (beq_iff_eq.mp hid).symm
          simp [this]
      · exact absurd htail hr

/-- The conditional default insertion (`if (!rules.has(k)) rules.set(k, v)`)
does not change other keys' lookups. -/
theorem mapGet_condSet_ne (m : List (ℤ × ℚ)) (k id : ℤ) (v : ℚ) (hne : id ≠ k) :
    mapGet (if !(mapHas m k) then mapSet m k v else m) id = mapGet m id := by
  by_cases h : mapHas m k <;> simp [h, mapGet_mapSet, hne]

/-- The conditional default insertion yields the default value when the key
is absent. -/
theorem mapGet_condSet_self (m : List (ℤ × ℚ)) (k : ℤ) (v : ℚ)
    (habs : mapGet m k = none) :
    mapGet (if !(mapHas m k) then mapSet m k v else m) k = some v := by
  have hh : mapHas m k = false := by rw [mapHas_eq_isSome, habs]; rfl
  simp [hh, mapGet_mapSet]

/-- After the conditional default insertion the key is always present. -/
theorem mapHas_condSet_self (m : List (ℤ × ℚ)) (k : ℤ) (v : ℚ) :
    mapHas (if !(mapHas m k) then mapSet m k v else m) k = true := by
  by_cases h : mapHas m k <;> simp [h, mapHas_mapSet]

/-- The conditional default insertion never removes a key. -/
theorem mapHas_condSet_mono (m : List (ℤ × ℚ)) (k id : ℤ) (v : ℚ)
    (h : mapHas m id = true) :
    mapHas (if !(mapHas m k) then mapSet m k v else m) id = true := by
  by_cases hk : mapHas m k <;> simp [hk, mapHas_mapSet, h]

unseal Rat.add Rat.mul Rat.inv Rat.sub Rat.ofScientific in
/-- C6 (counterexample): on a settings payload supplying no stat modifiers
at all, the built rule table contains three defaulted stat identifiers —
8 (passing 2pt), 15 (receiving 2pt) and 16 (rushing 2pt) — not exactly
two. -/
theorem two_point_defaults_three_not_two :
    (buildScoringRules []).map Prod.fst = [8, 15, 16]
    ∧ ¬((buildScoringRules []).map Prod.fst).length = 2 :=
  ⟨by decide, by decide⟩

/-- C6 (amended): a stat identifier is present in the built scoring table
iff the payload supplies it with a parseable value or it is one of the
three two-point-conversion ids 8, 15, 16; each of those three ids gets the
default value 2 points whenever the payload omits it. -/
theorem scoring_rules_default_characterization (mods : List StatModifier) (id : ℤ) :
    (mapHas (buildScoringRules mods) id = true ↔
      (mods.any (fun sm => sm.statId == id && (jsParseFloatStr sm.value).isSome) = true
        ∨ id = 8 ∨ id = 15 ∨ id = 16))
    ∧ (mods.any (fun sm => sm.statId == id && (jsParseFloatStr sm.value).isSome) = false →
        (id = 8 ∨ id = 15 ∨ id = 16) →
        mapGet (buildScoringRules mods) id = some 2) := by
  simp only [buildScoringRules]
  set base := mods.foldl (fun m sm =>
    match jsParseFloatStr sm.value with
    | some pts => mapSet m sm.statId pts
    | none => m) ([] : List (ℤ × ℚ)) with hbase
  set withPass := if !(mapHas base 8) then mapSet base 8 2 else base with hwp
  set withRec := if !(mapHas withPass 15) then mapSet withPass 15 2 else withPass with hwr
  constructor
  · constructor
    · intro h
      by_contra hneg
      push_neg at hneg
      obtain ⟨hs, h8, h15, h16⟩ := hneg
      have hs' : mods.any (fun sm => sm.statId == id && (jsParseFloatStr sm.value).isSome)
          = false := by
        revert hs
        cases mods.any (fun sm => sm.statId == id && (jsParseFloatStr sm.value).isSome) <;> simp
      have hbase0 : mapGet base id = none := by
        rw [hbase]
        exact (mapGet_rulesFold_unsupplied mods [] id hs').trans rfl
      have hstep1 : mapGet withPass id = none := by
        rw [hwp]
        exact (mapGet_condSet_ne base 8 id 2 h8).trans hbase0
      have hstep2 : mapGet withRec id = none := by
        rw [hwr]
        exact (mapGet_condSet_ne withPass 15 id 2 h15).trans hstep1
      have hfin : mapGet (if !(mapHas withRec 16) then mapSet withRec 16 2 else withRec) id
          = none :=
        (mapGet_condSet_ne withRec 16 id 2 h16).trans hstep2
      rw [mapHas_eq_isSome, hfin] at h
      simp at h
    · intro h
      rcases h with hs | rfl | rfl | rfl
      · have h1 : mapHas base id = true := by
          rw [hbase]
          exact mapHas_rulesFold_supplied mods [] id hs
        have h2 : mapHas withPass id = true := by
          rw [hwp]
          exact mapHas_condSet_mono base 8 id 2 h1
        have h3 : mapHas withRec id = true := by
          rw [hwr]
          exact mapHas_condSet_mono withPass 15 id 2 h2
        exact mapHas_condSet_mono withRec 16 id 2 h3
      · have h1 : mapHas withPass 8 = true := by
          rw [hwp]
          exact mapHas_condSet_self base 8 2
        have h2 : mapHas withRec 8 = true := by
          rw [hwr]
          exact mapHas_condSet_mono withPass 15 8 2 h1
        exact mapHas_condSet_mono withRec 16 8 2 h2
      · have h1 : mapHas withRec 15 = true := by
          rw [hwr]
          exact mapHas_condSet_self withPass 15 2
        exact mapHas_condSet_mono withRec 16 15 2 h1
      · exact mapHas_condSet_self withRec 16 2
  · intro hn hid
    have hbase0 : mapGet base id = none := by
      rw [hbase]
      exact (mapGet_rulesFold_unsupplied mods [] id hn).trans rfl
    rcases hid with rfl | rfl | rfl
    · have h1 : mapGet withPass 8 = some 2 := by
        rw [hwp]
        exact mapGet_condSet_self base 8 2 hbase0
      have h2 : mapGet withRec 8 = some 2 := by
        rw [hwr]
        exact (mapGet_condSet_ne withPass 15 8 2 (by decide)).trans h1
      exact (mapGet_condSet_ne withRec 16 8 2 (by decide)).trans h2
    · have h1 : mapGet withPass 15 = none := by
        rw [hwp]
        exact (mapGet_condSet_ne base 8 15 2 (by decide)).trans hbase0
      have h2 : mapGet withRec 15 = some 2 := by
        rw [hwr]
        exact mapGet_condSet_self withPass 15 2 h1
      exact (mapGet_condSet_ne withRec 16 15 2 (by decide)).trans h2
    · have h1 : mapGet withPass 16 = none := by
        rw [hwp]
        exact (mapGet_condSet_ne base 8 16 2 (by decide)).trans hbase0
      have h2 : mapGet withRec 16 = none := by
        rw [hwr]
        exact (mapGet_condSet_ne withPass 15 16 2 (by decide)).trans h1
      exact mapGet_condSet_self withRec 16 2 h2

unseal Rat.add Rat.mul Rat.inv Rat.sub Rat.ofScientific in
/-- Witness for C6 (amended): on the empty payload, id 16 is unsupplied
and receives the default value 2. -/
theorem scoring_rules_default_characterization_witness :
    mapGet (buildScoringRules []) 16 = some 2 :=
  (scoring_rules_default_characterization [] 16).2 (by decide) (Or.inr (Or.inr rfl))
